import Mathlib

/-!
Shallow embedding of the supervision core of the `golapaduck/monitoring`
repository, and proofs about the frozen specification claims.

Embedded modules:
* `src/backend/utils/cache.py`           -> `Cache` (tag-indexed TTL cache)
* `src/backend/utils/memory_manager.py`  -> `MemoryManager`
* `src/backend/utils/metric_buffer.py`   -> `MetricBuffer`
* `src/utils/webhook.py`                 -> `Webhook`
* `src/backend/utils/process_monitor.py` -> `MonState` / `checkProgram`
* `src/backend/api/programs.py`          -> `statusPoll`, endpoint action traces

Machine integers are modelled as `Nat` (no arithmetic in the claims
overflows), wall-clock instants as `Nat` epoch seconds, Python `None`
as `Option`, Python exceptions as explicit error values, and the
thread-per-operation concurrency as atomic state-transition functions
(each Python operation in question runs under a single lock acquisition).
-/

/-! ### Cache (`src/backend/utils/cache.py`, class `Cache`)

The Python object keeps two dicts `data`/`timestamps` (always with the same
key set), a `defaultdict(set)` reverse index `tags : tag -> keys`, a
`defaultdict(set)` forward index `key_tags : key -> tags`, and a fixed `ttl`.
We model the two parallel dicts as a `Finset` of present keys together with
total value/timestamp functions (junk outside `keys` is unobservable: every
read goes through `lookup`), and the two defaultdicts as total functions
whose value is the empty set where the Python dict has no entry (Python
membership/iteration cannot distinguish an absent entry from an empty set).
The `stats` counters are plain integer bookkeeping read by no claim and are
omitted; `invalidate_by_tag`'s return value `len(keys_to_delete)` is
computed directly from the deleted key list, as in the source. -/
structure Cache (K V T : Type) where
  keys : Finset K
  val : K → V
  ts : K → Nat
  tags : T → Finset K
  keyTags : K → Finset T
  ttl : Nat

variable {K V T : Type} [LinearOrder K] [DecidableEq T]

/-- Python iterates sets/dicts in an unspecified order; the model fixes the
sorted order (the claims are order-insensitive). -/
def Finset.asList {α : Type} [LinearOrder α] (s : Finset α) : List α :=
  s.sort (· ≤ ·)

/-- Observable content of the `data` dict: `data[k]` when present. -/
def Cache.lookup (s : Cache K V T) (k : K) : Option V :=
  if k ∈ s.keys then some (s.val k) else none

/-- `Cache._delete_key` (lines 79-93): guarded by `if key in self.data`;
removes the key from both dicts, discards it from the reverse index of each
of its tags, and drops its `key_tags` entry. -/
def Cache.deleteKey (s : Cache K V T) (k : K) : Cache K V T :=
  if k ∈ s.keys then
    { s with
      keys := s.keys.erase k
      tags := fun t => if t ∈ s.keyTags k then (s.tags t).erase k else s.tags t
      keyTags := Function.update s.keyTags k ∅ }
  else s

/-- `Cache.get` (lines 37-58): miss on absent key; lazy expiry (delete and
miss) when `now - timestamps[key] > ttl`; hit otherwise.  Returns the value
and the possibly-updated state. -/
def Cache.get (s : Cache K V T) (now : Nat) (k : K) : Option V × Cache K V T :=
  if k ∈ s.keys then
    if now - s.ts k > s.ttl then (none, s.deleteKey k) else (some (s.val k), s)
  else (none, s)

/-- `Cache.set` (lines 60-77): store value and timestamp, then register the
key under every given tag on both sides of the index (`if tags:` makes the
empty list a no-op, which the pointwise union also is). -/
def Cache.set (s : Cache K V T) (k : K) (v : V) (tgs : List T) (now : Nat) :
    Cache K V T :=
  { s with
    keys := insert k s.keys
    val := Function.update s.val k v
    ts := Function.update s.ts k now
    tags := fun t => if t ∈ tgs then insert k (s.tags t) else s.tags t
    keyTags := Function.update s.keyTags k (s.keyTags k ∪ tgs.toFinset) }

/-- `Cache.delete` (lines 95-103): `_delete_key` under the lock. -/
def Cache.delete (s : Cache K V T) (k : K) : Cache K V T :=
  s.deleteKey k

/-- `Cache.clear` (lines 105-111): clears all four dicts. -/
def Cache.clear (s : Cache K V T) : Cache K V T :=
  { s with keys := ∅, tags := fun _ => ∅, keyTags := fun _ => ∅ }

/-- The `for key in keys_to_delete: self._delete_key(key)` loop shared by
the invalidation operations. -/
def Cache.foldDelete (s : Cache K V T) (L : List K) : Cache K V T :=
  L.foldl Cache.deleteKey s

/-- `Cache.invalidate_by_tag` (lines 113-136): snapshot the keys under the
tag, delete each, drop the tag's own reverse-index entry, return the count.
(The source's early `if tag not in self.tags: return 0` coincides with the
general path when the snapshot is empty.) -/
def Cache.invalidateByTag (s : Cache K V T) (t : T) : Nat × Cache K V T :=
  let L := (s.tags t).asList
  let s2 := s.foldDelete L
  (L.length, { s2 with tags := Function.update s2.tags t ∅ })

/-- `Cache.invalidate_by_pattern` (lines 138-158): delete every present key
matched by the regex; the compiled regex is abstracted as the decidable
predicate `matches`. -/
def Cache.invalidateByPattern (s : Cache K V T) (isMatch : K → Bool) :
    Nat × Cache K V T :=
  let L := s.keys.asList.filter isMatch
  (L.length, s.foldDelete L)

/-- `Cache.invalidate_multiple_tags` (lines 160-172): `invalidate_by_tag`
for each tag in order, summing the counts. -/
def Cache.invalidateMultipleTags : Cache K V T → List T → Nat × Cache K V T
  | s, [] => (0, s)
  | s, t :: rest =>
      let r := s.invalidateByTag t
      let r2 := r.2.invalidateMultipleTags rest
      (r.1 + r2.1, r2.2)

/-- The tag-index invariant of the spec: a present key is listed in the
reverse index of exactly its own tags, and bookkeeping for absent keys is
empty (Python never leaves a `key_tags` entry behind for a deleted key). -/
def Cache.WF (s : Cache K V T) : Prop :=
  (∀ k t, k ∈ s.tags t ↔ k ∈ s.keys ∧ t ∈ s.keyTags k) ∧
  (∀ k, k ∉ s.keys → s.keyTags k = ∅)

/-! ### Memory controller (`src/backend/utils/memory_manager.py`)

`MemoryManager` keeps fixed thresholds (90 / 80), a cool-down of 60 s and the
epoch of the last cleanup.  Host RSS utilisation `percent` and the clock are
inputs sampled by the caller. -/
structure MemoryManager where
  critical_threshold : Nat := 90
  warning_threshold : Nat := 80
  last_cleanup : Nat := 0
  cleanup_cooldown : Nat := 60

/-- `MemoryManager._cleanup_all_cache` (lines 66-73): `cache.clear()`. -/
def MemoryManager.cleanupAllCache (c : Cache K V T) : Cache K V T :=
  c.clear

/-- `MemoryManager._cleanup_old_cache` (lines 75-93).  The loop body reads
`cache.cache.keys()`, but class `Cache` in `src/backend/utils/cache.py`
defines no attribute named `cache` (its dicts are `data` and `timestamps`),
so the very first statement of the `try` block raises `AttributeError`
before any `cache.delete` call; the surrounding `except Exception` swallows
it and only logs.  The observable effect on the cache is therefore the
identity: no entry is ever removed by this routine. -/
def MemoryManager.cleanupOldCache (c : Cache K V T) : Cache K V T :=
  c

/-- `MemoryManager.check_memory_pressure` (lines 20-64): classify `percent`
against the thresholds; inside the warning/critical bands run the matching
cleanup when the 60 s cool-down has elapsed and stamp `last_cleanup`.
Returns the reported level, the updated manager and the updated cache. -/
def MemoryManager.checkMemoryPressure (m : MemoryManager) (percent now : Nat)
    (c : Cache K V T) : String × MemoryManager × Cache K V T :=
  if percent ≥ m.critical_threshold then
    if now - m.last_cleanup ≥ m.cleanup_cooldown then
      ("critical", { m with last_cleanup := now }, MemoryManager.cleanupAllCache c)
    else ("critical", m, c)
  else if percent ≥ m.warning_threshold then
    if now - m.last_cleanup ≥ m.cleanup_cooldown then
      ("warning", { m with last_cleanup := now }, MemoryManager.cleanupOldCache c)
    else ("warning", m, c)
  else ("normal", m, c)

/-! ### Metric buffer (`src/backend/utils/metric_buffer.py`)

The buffered sample and the buffer state.  The SQLite store is modelled as
the committed `resource_usage` rows plus a `failing` flag standing for the
insert/commit raising (on the raise nothing is committed, the `except`
branch of `_flush_internal` only logs).  Each operation additionally
returns the list of batched inserts it performed, so "exactly one batched
insert" is a statement about that output. -/
structure Sample where
  program_id : Nat
  cpu_percent : Nat
  memory_mb : Nat
  timestamp : Nat
deriving DecidableEq

structure MetricBuffer where
  buffer : List Sample
  flush_interval : Nat := 10
  max_size : Nat := 1000
  last_flush : Nat
deriving DecidableEq

structure MetricStore where
  rows : List Sample
  failing : Bool
deriving DecidableEq

/-- `MetricBuffer._flush_internal` (lines 84-115): empty buffer is a no-op;
otherwise one `executemany` batch insert of the whole buffer, then clear the
buffer and stamp `last_flush`.  If the insert raises (`failing` store) the
`except` branch leaves buffer, `last_flush` and the committed rows
untouched. -/
def MetricBuffer.flushInternal (db : MetricStore) (b : MetricBuffer)
    (now : Nat) : MetricStore × MetricBuffer × List (List Sample) :=
  if b.buffer = [] then (db, b, [])
  else if db.failing then (db, b, [])
  else ({ db with rows := db.rows ++ b.buffer },
        { b with buffer := [], last_flush := now }, [b.buffer])

/-- `MetricBuffer.add` (lines 59-77): append the sample under the lock, then
flush immediately when the buffer has reached `max_size`. -/
def MetricBuffer.add (db : MetricStore) (b : MetricBuffer)
    (pid cpu mem now : Nat) : MetricStore × MetricBuffer × List (List Sample) :=
  let b2 := { b with buffer := b.buffer ++ [⟨pid, cpu, mem, now⟩] }
  if b2.buffer.length ≥ b2.max_size then MetricBuffer.flushInternal db b2 now
  else (db, b2, [])

/-- `MetricBuffer.flush` (lines 79-82): `_flush_internal` under the lock. -/
def MetricBuffer.flush (db : MetricStore) (b : MetricBuffer) (now : Nat) :
    MetricStore × MetricBuffer × List (List Sample) :=
  MetricBuffer.flushInternal db b now

/-- One iteration of `MetricBuffer._auto_flush_loop` (lines 117-133): every
second, flush only when `now - last_flush` has reached `flush_interval` and
the buffer is non-empty. -/
def MetricBuffer.autoFlushTick (db : MetricStore) (b : MetricBuffer)
    (now : Nat) : MetricStore × MetricBuffer × List (List Sample) :=
  if now - b.last_flush ≥ b.flush_interval then
    if b.buffer ≠ [] then MetricBuffer.flushInternal db b now else (db, b, [])
  else (db, b, [])

/-! ### Webhook dispatch (`src/utils/webhook.py`)

`send_webhook_notification(program_name, event_type, details, status,
webhook_url)` is handed `program["webhook_urls"]`, a Python `list`, by every
caller in this repository (`get_all_programs` builds a list per program).
The dynamic type of that argument matters, so it is embedded as a sum. -/
inductive UrlArg where
  | str (s : String)
  | list (urls : List String)
deriving DecidableEq

/-- Python truthiness of the `webhook_url` argument (`if not webhook_url`). -/
def UrlArg.falsy : UrlArg → Bool
  | .str s => s = ""
  | .list l => l.isEmpty

/-- `data/webhook_config.json` content read by `get_webhook_config`. -/
structure WebhookConfig where
  enabled : Bool
  events : List String
deriving DecidableEq

/-- Outcome of the worker thread running `_send_webhook_sync`: either the
function returned `(ok, msg)` after performing the listed HTTP POSTs, or an
uncaught exception killed the worker after the listed POSTs. -/
inductive SyncOutcome where
  | returned (ok : Bool) (msg : String) (posts : List String)
  | raised (err : String) (posts : List String)
deriving DecidableEq

/-- Substring test used for `"discord.com" in target_url.lower()`. -/
def containsDiscord (u : String) : Bool :=
  (u.toLower.splitOn "discord.com").length ≠ 1

/-- `_send_webhook_sync` (lines 70-275), up to the HTTP POST.  Skips (with a
successful return) on a falsy URL argument, a disabled config, or an event
type outside the configured list.  It then evaluates
`"discord.com" in target_url.lower()`: when the argument is a `list` this
raises `AttributeError` (a `list` has no `lower`), which no handler covers
(the `try` begins only at the `requests.post` preparation further down), so
the worker dies having performed zero POSTs.  For a string URL exactly one
POST is made, to `url?thread_id=...` when a Discord thread binding exists.
The HTTP response status is the `respStatus` input; payload shaping and the
response-driven thread-id persistence build no further requests and are not
modelled. -/
def sendWebhookSyncRun (cfg : WebhookConfig) (threadId : Option String)
    (event : String) (url : UrlArg) (respStatus : Nat) : SyncOutcome :=
  if url.falsy then .returned true "No program-specific webhook configured" []
  else if ¬cfg.enabled then .returned true "Webhook disabled" []
  else if event ∉ cfg.events then
    .returned true "Event type not in configured events" []
  else
    match url with
    | .list _ => .raised "AttributeError: list object has no attribute lower" []
    | .str u =>
        let requestUrl :=
          if containsDiscord u then
            match threadId with
            | some tid => u ++ "?thread_id=" ++ tid
            | none => u
          else u
        if respStatus = 200 ∨ respStatus = 201 ∨ respStatus = 204 then
          .returned true "Webhook sent successfully" [requestUrl]
        else .returned false "Webhook failed" [requestUrl]

/-- `send_webhook_notification` (lines 278-307): falsy URL short-circuits;
otherwise exactly one daemon worker thread is spawned for the whole
argument and the caller immediately gets the queued result.  The second
component is the spawned worker's run, `none` when no thread was started. -/
def sendWebhookNotification (cfg : WebhookConfig) (threadId : Option String)
    (event : String) (url : UrlArg) (respStatus : Nat) :
    (Bool × String) × Option SyncOutcome :=
  if url.falsy then ((true, "No program-specific webhook configured"), none)
  else ((true, "Webhook queued for async delivery"),
        some (sendWebhookSyncRun cfg threadId event url respStatus))

/-- All HTTP POSTs performed by a worker outcome. -/
def SyncOutcome.posts : SyncOutcome → List String
  | .returned _ _ p => p
  | .raised _ p => p

/-! ### Supervisor sweep (`src/backend/utils/process_monitor.py`)

`ProcessMonitor._check_processes` iterates once per registered program over
the batch-status snapshot; the per-program body (lines 90-150) is embedded
as `checkProgram` and the sweep as its fold.  The metric-collector thread
spawning, the `last_metrics` map, websocket/Prometheus emission payloads and
logging are side channels: the websocket emissions are kept as outputs, the
collector threads touch no supervisor state relevant to the claims. -/
structure ProgramStatus where
  id : Nat
  name : String
  webhook_urls : List String
  running : Bool
  pid : Option Nat
deriving DecidableEq

/-- Python truthiness of an optional integer column (`if saved_pid:`,
`if current_pid:` treat both `None` and `0` as false). -/
def optTruthy : Option Nat → Bool
  | some n => n ≠ 0
  | none => false

/-- In-memory `ProcessMonitor` state: `last_status` (name → bool),
`recent_stops` (the intentional-stop set), `running_processes`
(program id → pid) and the `pending_check` immediate-check flag. -/
structure MonState where
  last_status : String → Option Bool
  recent_stops : Finset String
  running_processes : Nat → Option Nat
  pending_check : Bool

/-- An argument record of a `send_webhook_notification` call, in source
parameter order. -/
structure Notification where
  program_name : String
  event_type : String
  details : String
  severity : String
  urls : List String
deriving DecidableEq

/-- Externally visible calls made by one sweep iteration: `log_program_event`
appends `(program_id, kind, details)`, webhook submissions, database pid
clears (`remove_program_pid`) and updates (`update_program_pid` — the sweep
never calls it), and `emit_program_status` websocket payloads. -/
structure SweepEffects where
  events : List (Nat × String × String)
  notifs : List Notification
  removedPids : List Nat
  updatedPids : List (Nat × Nat)
  statusEmits : List (Nat × Bool × Option Nat)
deriving DecidableEq

/-- `ProcessMonitor._handle_unexpected_termination` (lines 293-316): append
one `crash` event; submit one error-severity webhook notification when the
program has destination URLs, none otherwise. -/
def handleUnexpectedTermination (id : Nat) (name : String)
    (urls : List String) : List (Nat × String × String) × List Notification :=
  ([(id, "crash", "프로세스가 예기치 않게 종료됨")],
   if urls.isEmpty then []
   else [⟨name, "crash", "프로세스가 예기치 않게 종료되었습니다. 원인을 확인하세요.",
          "error", urls⟩])

/-- Per-program body of `ProcessMonitor._check_processes` (lines 90-150):
(1) track `running_processes`; (2) compare against `last_status`:
`running → stopped` is classified through `recent_stops` (consume the entry
silently, or handle as unexpected termination), then the stored pid is
cleared and a stopped status emitted; `stopped/unknown → running` only emits
a websocket status; a first observation (`last_status` unset) records only;
(3) store the current liveness in `last_status`. -/
def checkProgram (st : MonState) (p : ProgramStatus) :
    MonState × SweepEffects :=
  let rp :=
    if p.running ∧ optTruthy p.pid then
      Function.update st.running_processes p.id p.pid
    else if (st.running_processes p.id).isSome then
      Function.update st.running_processes p.id none
    else st.running_processes
  let finish := fun (stops : Finset String)
      (ev : List (Nat × String × String)) (nf : List Notification)
      (rem : List Nat) (em : List (Nat × Bool × Option Nat)) =>
    ({ last_status := Function.update st.last_status p.name (some p.running)
       recent_stops := stops
       running_processes := rp
       pending_check := st.pending_check },
     { events := ev, notifs := nf, removedPids := rem, updatedPids := [],
       statusEmits := em })
  match st.last_status p.name with
  | none => finish st.recent_stops [] [] [] []
  | some was =>
      if was ∧ ¬p.running then
        if p.name ∈ st.recent_stops then
          finish (st.recent_stops.erase p.name) [] [] [p.id]
            [(p.id, false, none)]
        else
          let r := handleUnexpectedTermination p.id p.name p.webhook_urls
          finish st.recent_stops r.1 r.2 [p.id] [(p.id, false, none)]
      else if ¬was ∧ p.running then
        finish st.recent_stops [] [] [] [(p.id, true, p.pid)]
      else finish st.recent_stops [] [] [] []

/-- `ProcessMonitor._check_processes`: the sweep folds `checkProgram` over
the batch snapshot, concatenating effects in iteration order. -/
def checkProcesses (st : MonState) (ps : List ProgramStatus) :
    MonState × SweepEffects :=
  ps.foldl
    (fun acc p =>
      let r := checkProgram acc.1 p
      (r.1,
       { events := acc.2.events ++ r.2.events
         notifs := acc.2.notifs ++ r.2.notifs
         removedPids := acc.2.removedPids ++ r.2.removedPids
         updatedPids := acc.2.updatedPids ++ r.2.updatedPids
         statusEmits := acc.2.statusEmits ++ r.2.statusEmits }))
    (st, ⟨[], [], [], [], []⟩)

/-! ### Operator lifecycle endpoints (`src/backend/api/programs.py`)

The `stop` and `restart` handlers are embedded as the ordered trace of the
externally visible calls they make; `mark_intentional_stop` /
`request_immediate_check` (process_monitor.py lines 345-366, with the
monitor singleton running) become the first two actions of `stop`'s trace.
Branch conditions that depend on the environment (plug-in binding, plug-in
action success, adapter stop/start success) are Boolean inputs. -/
inductive ApiAction where
  | addRecentStop (name : String)
  | setPendingCheck
  | pluginShutdown (programId : Nat)
  | adapterStop (path : String) (force : Bool)
  | adapterStart (path : String)
  | setGraceful (programId : Nat) (seconds : Nat)
  | removePid (programId : Nat)
  | updatePid (programId : Nat) (pid : Nat)
  | logEvent (programId : Nat) (kind : String)
  | notify (name : String) (kind : String) (severity : String)
  | cacheDelete (key : String)
deriving DecidableEq

/-- A `programs` table row as the endpoints read it. -/
structure ProgramRec where
  id : Nat
  name : String
  path : String
deriving DecidableEq

/-- `mark_intentional_stop(name)` (process_monitor.py lines 345-355): add
the name to `recent_stops`, then request an immediate check. -/
def markIntentionalStopTrace (name : String) : List ApiAction :=
  [.addRecentStop name, .setPendingCheck]

/-- `stop` endpoint (programs.py lines 151-239), success-relevant trace:
mark the intentional stop first; then either the palworld plug-in graceful
path (recording the 30 s deadline on success, falling back to the adapter on
failure) or a plain adapter stop; on a non-graceful success remove the pid;
on any success log the `stop` event, submit the warning webhook, drop the
status cache entry and request another immediate check. -/
def stopEndpointTrace (p : ProgramRec) (force palworldBound pluginOk stopOk :
    Bool) : List ApiAction :=
  let graceful := palworldBound ∧ ¬force ∧ pluginOk
  let succ := if palworldBound ∧ ¬force then (pluginOk ∨ stopOk) else stopOk
  markIntentionalStopTrace p.name ++
  (if palworldBound ∧ ¬force then
      [.pluginShutdown p.id] ++
      (if pluginOk then [.setGraceful p.id 30]
       else [.adapterStop p.path false])
    else [.adapterStop p.path force]) ++
  (if succ ∧ ¬graceful then [.removePid p.id] else []) ++
  (if succ then
      [.logEvent p.id "stop", .notify p.name "stop" "warning",
       .cacheDelete "programs_status", .setPendingCheck]
    else [])

/-- `restart` endpoint (programs.py lines 242-265): it calls
`restart_program` (process_manager.py lines 432-445: adapter stop with
default `force=False`, then adapter start) directly — it never touches
`mark_intentional_stop` or `request_immediate_check` — then on success
stores the new pid, logs the `restart` event and submits the info webhook. -/
def restartEndpointTrace (p : ProgramRec) (startOk : Bool)
    (newPid : Option Nat) : List ApiAction :=
  [.adapterStop p.path false, .adapterStart p.path] ++
  (if startOk ∧ optTruthy newPid then [.updatePid p.id (newPid.getD 0)]
   else []) ++
  (if startOk then [.logEvent p.id "restart", .notify p.name "restart" "info"]
   else [])

/-- Actions that touch the supervisor's intentional-stop set or
immediate-check flag. -/
def ApiAction.touchesMonitor : ApiAction → Bool
  | .addRecentStop _ => true
  | .setPendingCheck => true
  | _ => false

/-! ### Status poll (`src/backend/api/programs.py`, `status`, lines 367-481)

Per-program body of the status endpoint, for the graceful-shutdown
presentation: the `programs` row fields it reads and writes, the
`get_process_stats` result, and the clock are inputs; output is the
reported entry (status string and `shutdown_remaining`) plus the row as the
endpoint's database writes leave it. -/
structure ProgRow where
  pid : Option Nat
  shutdown_start : Option Nat
  shutdown_end : Option Nat
deriving DecidableEq

structure ProcStats where
  running : Bool
  pid : Option Nat
deriving DecidableEq

structure PollEntry where
  status : String
  shutdown_remaining : Option Nat
deriving DecidableEq

/-- One program's slice of `status` (lines 396-463).  With a truthy
persisted deadline pair: before `shutdown_end` the program is presented as
`shutting_down` with the remaining seconds and no database write happens
(the pid reconciliation steps are guarded by `not is_shutting_down`); from
`shutdown_end` on, the deadline is cleared, a truthy stored pid removed, and
`stats['running']` forced to `False` so the entry reads `stopped`.  Without
a deadline the entry mirrors `stats['running']`, updating a changed pid or
removing a vanished one. -/
def statusPoll (row : ProgRow) (stats : ProcStats) (now : Nat) :
    PollEntry × ProgRow :=
  let savedPid := row.pid
  let hasDeadline := optTruthy row.shutdown_start ∧ optTruthy row.shutdown_end
  let e := row.shutdown_end.getD 0
  let shuttingDown := hasDeadline ∧ now < e
  let completed := hasDeadline ∧ ¬now < e
  let running1 := if completed then false else stats.running
  let row1 :=
    if completed then
      { row with shutdown_start := none, shutdown_end := none,
                 pid := if optTruthy savedPid then none else row.pid }
    else row
  let row2 :=
    if running1 ∧ stats.pid ≠ savedPid ∧ ¬shuttingDown then
      { row1 with pid := stats.pid }
    else row1
  let row3 :=
    if ¬running1 ∧ optTruthy savedPid ∧ ¬shuttingDown then
      { row2 with pid := none }
    else row2
  let st := if shuttingDown then "shutting_down"
            else if running1 then "running" else "stopped"
  ({ status := st
     shutdown_remaining := if shuttingDown then some (e - now) else none },
   row3)

/-! ### Concrete instances used by witnesses and counterexamples -/

/-- Monitor state that observed program `p` running, with `p` in the
intentional-stop set. -/
def stIntent : MonState :=
  { last_status := fun n => if n = "p" then some true else none
    recent_stops := {"p"}
    running_processes := fun _ => none
    pending_check := false }

/-- Monitor state that observed program `p` running, intentional-stop set
empty. -/
def stCrash : MonState :=
  { last_status := fun n => if n = "p" then some true else none
    recent_stops := ∅
    running_processes := fun _ => none
    pending_check := false }

/-- Monitor state that observed program `p` stopped. -/
def stSawStopped : MonState :=
  { last_status := fun n => if n = "p" then some false else none
    recent_stops := ∅
    running_processes := fun _ => none
    pending_check := false }

/-- Sweep observation: `p` (id 1) not running. -/
def pStopObs : ProgramStatus :=
  { id := 1, name := "p", webhook_urls := ["http://hook.example/a"],
    running := false, pid := none }

/-- Sweep observation: `p` (id 1) running with pid 7. -/
def pStartObs : ProgramStatus :=
  { id := 1, name := "p", webhook_urls := ["http://hook.example/a"],
    running := true, pid := some 7 }

/-- A registered program row for the endpoint traces. -/
def progRec : ProgramRec := { id := 1, name := "p", path := "/bin/p" }

/-- An enabled webhook configuration covering all four event kinds. -/
def cfgEnabled : WebhookConfig :=
  { enabled := true, events := ["start", "stop", "restart", "crash"] }

/-- Program row with pid 7 and a persisted shutdown deadline (10, 40). -/
def rowGraceful : ProgRow :=
  { pid := some 7, shutdown_start := some 10, shutdown_end := some 40 }

/-- Adapter stats: process running with pid 7 / process gone. -/
def statsOn : ProcStats := { running := true, pid := some 7 }

def statsOff : ProcStats := { running := false, pid := none }

/-- A healthy and a failing metric store, both with no committed rows. -/
def dbOk : MetricStore := { rows := [], failing := false }

def dbBad : MetricStore := { rows := [], failing := true }

/-- Metric buffer with capacity 3 holding two samples. -/
def bufTwo : MetricBuffer :=
  { buffer := [⟨1, 2, 3, 4⟩, ⟨2, 3, 4, 5⟩], flush_interval := 10,
    max_size := 3, last_flush := 0 }

/-- Cache holding key `a` (value 1, inserted at 0) tagged `T`. -/
def cacheW : Cache String Nat String :=
  { keys := {"a"}
    val := fun _ => 1
    ts := fun _ => 0
    tags := fun t => if t = "T" then {"a"} else ∅
    keyTags := fun k => if k = "a" then {"T"} else ∅
    ttl := 300 }

/-- Cache holding key `k` (value 7) inserted at epoch 0. -/
def cacheOld : Cache String Nat String :=
  { keys := {"k"}
    val := fun _ => 7
    ts := fun _ => 0
    tags := fun _ => ∅
    keyTags := fun _ => ∅
    ttl := 300 }

/-- Memory manager with the default thresholds and no previous cleanup. -/
def mmFresh : MemoryManager := {}

/-! ## Claim theorems -/

/-- Claim C3: graceful-shutdown presentation.  For a program with a
persisted shutdown deadline `(s, e)`, every status poll strictly before `e`
reports `shutting_down` with remaining seconds `e - now` and leaves the row
untouched; the first poll at or after `e` clears the deadline and the stored
child pid and reports `stopped`; every later poll of the cleared row (the
process being gone) reports `stopped` with no pending deadline. -/
theorem c3_graceful_shutdown_presentation
    (row : ProgRow) (stats stats2 : ProcStats) (s e now now2 : Nat)
    (hs : row.shutdown_start = some s) (hs0 : s ≠ 0)
    (he : row.shutdown_end = some e) (he0 : e ≠ 0)
    (hpid : row.pid ≠ some 0) :
    (now < e →
      (statusPoll row stats now).1 = ⟨"shutting_down", some (e - now)⟩ ∧
      (statusPoll row stats now).2 = row) ∧
    (e ≤ now →
      (statusPoll row stats now).1 = ⟨"stopped", none⟩ ∧
      (statusPoll row stats now).2 = ⟨none, none, none⟩) ∧
    (stats2.running = false →
      (statusPoll ⟨none, none, none⟩ stats2 now2).1 = ⟨"stopped", none⟩ ∧
      (statusPoll ⟨none, none, none⟩ stats2 now2).2 = ⟨none, none, none⟩) := by
  obtain ⟨rpid, rss, rse⟩ := row
  simp only at hs he hpid
  subst hs he
  refine ⟨fun hlt => ?_, fun hge => ?_, fun hoff => ?_⟩
  · simp [statusPoll, optTruthy, hs0, he0, hlt]
  · rcases rpid with _ | n
    · simp [statusPoll, optTruthy, hs0, he0, Nat.not_lt.mpr hge]
    · have hn : n ≠ 0 := fun h => hpid (by simp [h])
      simp [statusPoll, optTruthy, hs0, he0, hn, Nat.not_lt.mpr hge]
  · simp [statusPoll, optTruthy, hoff]

theorem c3_witness :
    ((statusPoll rowGraceful statsOn 20).1 = ⟨"shutting_down", some 20⟩ ∧
     (statusPoll rowGraceful statsOn 20).2 = rowGraceful) ∧
    ((statusPoll rowGraceful statsOff 50).1 = ⟨"stopped", none⟩ ∧
     (statusPoll rowGraceful statsOff 50).2 = ⟨none, none, none⟩) ∧
    ((statusPoll ⟨none, none, none⟩ statsOff 60).1 = ⟨"stopped", none⟩ ∧
     (statusPoll ⟨none, none, none⟩ statsOff 60).2 = ⟨none, none, none⟩) :=
  ⟨(c3_graceful_shutdown_presentation rowGraceful statsOn statsOff 10 40 20 60
      rfl (by decide) rfl (by decide) (by decide)).1 (by decide),
   (c3_graceful_shutdown_presentation rowGraceful statsOff statsOff 10 40 50 60
      rfl (by decide) rfl (by decide) (by decide)).2.1 (by decide),
   (c3_graceful_shutdown_presentation rowGraceful statsOff statsOff 10 40 50 60
      rfl (by decide) rfl (by decide) (by decide)).2.2 rfl⟩

/-- Claim C6: the `add` that brings the buffered count to `max_size`
performs exactly one batched insert of all buffered rows (committing them to
the store), empties the buffer and stamps `last_flush`; afterwards the
periodic flusher performs no insert at any tick before `flush_interval`
seconds have elapsed (with no new sample added, its check finds an empty
buffer and a fresh `last_flush`). -/
theorem c6_capacity_triggered_flush (db : MetricStore) (b : MetricBuffer)
    (pid cpu mem now t : Nat)
    (hfail : db.failing = false)
    (hcap : b.buffer.length + 1 = b.max_size) :
    (MetricBuffer.add db b pid cpu mem now).2.2
        = [b.buffer ++ [⟨pid, cpu, mem, now⟩]] ∧
    (MetricBuffer.add db b pid cpu mem now).1.rows
        = db.rows ++ (b.buffer ++ [⟨pid, cpu, mem, now⟩]) ∧
    (MetricBuffer.add db b pid cpu mem now).2.1.buffer = [] ∧
    (MetricBuffer.add db b pid cpu mem now).2.1.last_flush = now ∧
    (t < now + b.flush_interval →
      MetricBuffer.autoFlushTick (MetricBuffer.add db b pid cpu mem now).1
          (MetricBuffer.add db b pid cpu mem now).2.1 t
        = ((MetricBuffer.add db b pid cpu mem now).1,
           (MetricBuffer.add db b pid cpu mem now).2.1, [])) := by
  have hadd : MetricBuffer.add db b pid cpu mem now
      = ({ db with rows := db.rows ++ (b.buffer ++ [⟨pid, cpu, mem, now⟩]) },
         { b with buffer := [], last_flush := now },
         [b.buffer ++ [⟨pid, cpu, mem, now⟩]]) := by
    simp [MetricBuffer.add, MetricBuffer.flushInternal, hfail, hcap]
  rw [hadd]
  refine ⟨rfl, rfl, rfl, rfl, fun _ => ?_⟩
  simp [MetricBuffer.autoFlushTick]

theorem c6_witness :
    (MetricBuffer.add dbOk bufTwo 3 1 1 100).2.2
        = [[⟨1, 2, 3, 4⟩, ⟨2, 3, 4, 5⟩, ⟨3, 1, 1, 100⟩]] ∧
    (MetricBuffer.add dbOk bufTwo 3 1 1 100).1.rows
        = [⟨1, 2, 3, 4⟩, ⟨2, 3, 4, 5⟩, ⟨3, 1, 1, 100⟩] ∧
    (MetricBuffer.add dbOk bufTwo 3 1 1 100).2.1.buffer = [] ∧
    (MetricBuffer.add dbOk bufTwo 3 1 1 100).2.1.last_flush = 100 ∧
    MetricBuffer.autoFlushTick (MetricBuffer.add dbOk bufTwo 3 1 1 100).1
        (MetricBuffer.add dbOk bufTwo 3 1 1 100).2.1 105
      = ((MetricBuffer.add dbOk bufTwo 3 1 1 100).1,
         (MetricBuffer.add dbOk bufTwo 3 1 1 100).2.1, []) := by
  have h := c6_capacity_triggered_flush dbOk bufTwo 3 1 1 100 105 rfl
    (by decide)
  exact ⟨h.1, h.2.1, h.2.2.1, h.2.2.2.1, h.2.2.2.2 (by decide)⟩

/-- Claim C10: when the batched insert raises (failing store), a flush
leaves buffer contents, `last_flush` and the committed rows unchanged, and
`add` still appends its sample without flushing anything — the buffer may
grow beyond `max_size` but no sample is ever discarded. -/
theorem c10_flush_error_atomicity (db : MetricStore) (b : MetricBuffer)
    (pid cpu mem now now2 : Nat) (hfail : db.failing = true) :
    MetricBuffer.flush db b now2 = (db, b, []) ∧
    (MetricBuffer.add db b pid cpu mem now).1 = db ∧
    (MetricBuffer.add db b pid cpu mem now).2.1.buffer
        = b.buffer ++ [⟨pid, cpu, mem, now⟩] ∧
    (MetricBuffer.add db b pid cpu mem now).2.1.last_flush = b.last_flush ∧
    (MetricBuffer.add db b pid cpu mem now).2.2 = [] := by
  have hflush : ∀ b2 : MetricBuffer, ∀ n : Nat,
      MetricBuffer.flushInternal db b2 n = (db, b2, []) := by
    intro b2 n
    by_cases h : b2.buffer = [] <;> simp [MetricBuffer.flushInternal, h, hfail]
  have haddgen : MetricBuffer.add db b pid cpu mem now
      = (db, { b with buffer := b.buffer ++ [⟨pid, cpu, mem, now⟩] }, []) := by
    simp only [MetricBuffer.add]
    split
    · rw [hflush]
    · rfl
  rw [haddgen]
  exact ⟨hflush b now2, rfl, rfl, rfl, rfl⟩

theorem c10_witness :
    MetricBuffer.flush dbBad bufTwo 50 = (dbBad, bufTwo, []) ∧
    (MetricBuffer.add dbBad bufTwo 3 1 1 100).1 = dbBad ∧
    (MetricBuffer.add dbBad bufTwo 3 1 1 100).2.1.buffer
        = [⟨1, 2, 3, 4⟩, ⟨2, 3, 4, 5⟩, ⟨3, 1, 1, 100⟩] ∧
    (MetricBuffer.add dbBad bufTwo 3 1 1 100).2.1.last_flush = 0 ∧
    (MetricBuffer.add dbBad bufTwo 3 1 1 100).2.2 = [] :=
  c10_flush_error_atomicity dbBad bufTwo 3 1 1 100 50 rfl

/-- Claim C5 (code bug evidence): submitting a notification with a list of
destination URLs (a one-element list, enabled config, event type
configured).  The caller does get the queued result immediately, but the
single worker thread spawned for the whole list dies on
`"discord.com" in target_url.lower()` — a Python `list` has no `lower` —
having performed zero HTTP POSTs, so no destination receives a request,
contradicting one-request-per-destination fan-out. -/
theorem c5_list_destinations_get_no_request :
    sendWebhookNotification cfgEnabled none "crash"
        (.list ["http://a.example/hook"]) 204
      = ((true, "Webhook queued for async delivery"),
         some (.raised "AttributeError: list object has no attribute lower"
           [])) ∧
    (sendWebhookNotification cfgEnabled none "crash"
        (.list ["http://a.example/hook"]) 204).2.map SyncOutcome.posts
      = some [] := by
  constructor <;> rfl

/-- Claim C9 (code bug evidence): host RSS at 85 % (the 80-89 % band), the
60 s cool-down elapsed, and a cache entry inserted 100 s ago (age > 60 s).
The controller reports `warning`, yet the entry survives the sweep: the
eviction routine references the non-existent attribute `cache.cache`, the
`AttributeError` is swallowed, and nothing is removed. -/
theorem c9_old_entry_survives_warning_band :
    (MemoryManager.checkMemoryPressure mmFresh 85 100 cacheOld).1 = "warning" ∧
    100 - cacheOld.ts "k" > 60 ∧
    100 - mmFresh.last_cleanup ≥ mmFresh.cleanup_cooldown ∧
    ((MemoryManager.checkMemoryPressure mmFresh 85 100 cacheOld).2.2).lookup "k"
      = some 7 := by
  refine ⟨rfl, by decide, by decide, ?_⟩
  simp [MemoryManager.checkMemoryPressure, MemoryManager.cleanupOldCache,
    mmFresh, cacheOld, Cache.lookup]

/-- Claim C1: crash/stop disambiguation.  When a sweep sees a program go
from observed-running to not-running: if its name is in the intentional-stop
set, the entry is consumed and no event or notification is produced;
otherwise exactly one `crash` event is appended and one error-severity
webhook notification is submitted to the program's destination URLs (none
when it has no destinations).  In both cases the stored child pid is
cleared. -/
theorem c1_crash_stop_disambiguation (st : MonState) (p : ProgramStatus)
    (hwas : st.last_status p.name = some true) (hrun : p.running = false) :
    (p.name ∈ st.recent_stops →
      (checkProgram st p).2.events = [] ∧
      (checkProgram st p).2.notifs = [] ∧
      (checkProgram st p).1.recent_stops = st.recent_stops.erase p.name) ∧
    (p.name ∉ st.recent_stops →
      (checkProgram st p).2.events
          = [(p.id, "crash", "프로세스가 예기치 않게 종료됨")] ∧
      (checkProgram st p).2.notifs
          = (if p.webhook_urls.isEmpty then []
             else [⟨p.name, "crash",
                    "프로세스가 예기치 않게 종료되었습니다. 원인을 확인하세요.",
                    "error", p.webhook_urls⟩])) ∧
    (checkProgram st p).2.removedPids = [p.id] := by
  by_cases hmem : p.name ∈ st.recent_stops <;>
    simp [checkProgram, hwas, hrun, hmem, handleUnexpectedTermination]

theorem c1_witness :
    ((checkProgram stIntent pStopObs).2.events = [] ∧
     (checkProgram stIntent pStopObs).2.notifs = [] ∧
     (checkProgram stIntent pStopObs).1.recent_stops
        = stIntent.recent_stops.erase "p") ∧
    ((checkProgram stCrash pStopObs).2.events
        = [(1, "crash", "프로세스가 예기치 않게 종료됨")] ∧
     (checkProgram stCrash pStopObs).2.notifs
        = [⟨"p", "crash",
            "프로세스가 예기치 않게 종료되었습니다. 원인을 확인하세요.",
            "error", ["http://hook.example/a"]⟩]) ∧
    (checkProgram stIntent pStopObs).2.removedPids = [1] ∧
    (checkProgram stCrash pStopObs).2.removedPids = [1] := by
  have hi := c1_crash_stop_disambiguation stIntent pStopObs
    (by decide) (by decide)
  have hc := c1_crash_stop_disambiguation stCrash pStopObs
    (by decide) (by decide)
  have hc2 := hc.2.1 (by decide)
  exact ⟨hi.1 (by decide), ⟨hc2.1, by simpa using hc2.2⟩, hi.2.2, hc.2.2⟩

/-- Claim C2 fails on the code: a sweep observing `stopped → running` for a
program with a destination URL and a fresh pid appends no event, submits no
notification, and performs no stored-pid update whatsoever (in particular no
`start` event and no success notification, which the claim requires). -/
theorem c2_counterexample_no_start_event :
    (checkProgram stSawStopped pStartObs).2.events = [] ∧
    (checkProgram stSawStopped pStartObs).2.notifs = [] ∧
    (checkProgram stSawStopped pStartObs).2.updatedPids = [] ∧
    (checkProgram stSawStopped pStartObs).2.removedPids = [] := by
  refine ⟨?_, ?_, ?_, ?_⟩ <;> rfl

/-- Claim C2 amended: on an observed `stopped → running` transition the
sweep records the new pid only in its in-memory `running_processes` map,
emits one websocket status update, and flips `last_status` — it appends no
event, submits no webhook notification, and neither updates nor clears the
stored child pid.  (A first observation, `unknown → running`, records
`last_status` only; `start` events are appended by the operator start
command, not by the sweep.) -/
theorem c2_amended_sweep_start_transition (st : MonState) (p : ProgramStatus)
    (q : Nat) (hwas : st.last_status p.name = some false)
    (hrun : p.running = true) (hpid : p.pid = some q) (hq : q ≠ 0) :
    (checkProgram st p).1.running_processes p.id = some q ∧
    (checkProgram st p).1.last_status p.name = some true ∧
    (checkProgram st p).2.events = [] ∧
    (checkProgram st p).2.notifs = [] ∧
    (checkProgram st p).2.removedPids = [] ∧
    (checkProgram st p).2.updatedPids = [] ∧
    (checkProgram st p).2.statusEmits = [(p.id, true, some q)] := by
  simp [checkProgram, hwas, hrun, hpid, optTruthy, hq]

theorem c2_amended_witness :
    (checkProgram stSawStopped pStartObs).1.running_processes 1 = some 7 ∧
    (checkProgram stSawStopped pStartObs).1.last_status "p" = some true ∧
    (checkProgram stSawStopped pStartObs).2.events = [] ∧
    (checkProgram stSawStopped pStartObs).2.notifs = [] ∧
    (checkProgram stSawStopped pStartObs).2.removedPids = [] ∧
    (checkProgram stSawStopped pStartObs).2.updatedPids = [] ∧
    (checkProgram stSawStopped pStartObs).2.statusEmits
        = [(1, true, some 7)] := by
  have h := c2_amended_sweep_start_transition stSawStopped pStartObs 7
    (by decide) (by decide) (by decide) (by decide)
  simpa using h

/-- Claim C4 fails on the code for `restart`: the restart endpoint's trace
invokes the adapter's termination routine (and the rest of the restart
path) without ever adding the program's name to the intentional-stop set or
raising the immediate-check flag. -/
theorem c4_counterexample_restart_never_marks :
    ((restartEndpointTrace progRec true (some 7)).all
        fun a => !a.touchesMonitor) = true ∧
    ApiAction.adapterStop "/bin/p" false
        ∈ restartEndpointTrace progRec true (some 7) := by
  constructor <;> decide

/-- Claim C4 amended: `stop(id, force)` adds the program's name to the
intentional-stop set and raises the immediate-check flag as its very first
two actions — before any plug-in or adapter termination — for every
combination of force flag, plug-in binding and success outcomes; `restart`,
however, performs no intentional-stop marking and no immediate-check
request at all. -/
theorem c4_amended_stop_marks_restart_does_not (p : ProgramRec)
    (force palworldBound pluginOk stopOk startOk : Bool)
    (newPid : Option Nat) :
    (stopEndpointTrace p force palworldBound pluginOk stopOk).head?
        = some (.addRecentStop p.name) ∧
    (stopEndpointTrace p force palworldBound pluginOk stopOk).tail.head?
        = some .setPendingCheck ∧
    ((restartEndpointTrace p startOk newPid).all
        fun a => !a.touchesMonitor) = true := by
  refine ⟨rfl, rfl, ?_⟩
  cases startOk <;>
    cases h : optTruthy newPid <;>
      simp [restartEndpointTrace, h, ApiAction.touchesMonitor]

theorem c4_amended_witness :
    (stopEndpointTrace progRec false false false true).head?
        = some (.addRecentStop "p") ∧
    (stopEndpointTrace progRec false false false true).tail.head?
        = some .setPendingCheck ∧
    ((restartEndpointTrace progRec true (some 7)).all
        fun a => !a.touchesMonitor) = true :=
  c4_amended_stop_marks_restart_does_not progRec false false false true true
    (some 7)

/-! ## Cache lemmas (towards C7 and C8) -/

theorem cache_mem_deleteKey_keys {s : Cache K V T} {k x : K} :
    x ∈ (s.deleteKey k).keys ↔ x ∈ s.keys ∧ x ≠ k := by
  unfold Cache.deleteKey
  split
  · next hk =>
      simp [Finset.mem_erase, and_comm]
  · next hk =>
      refine ⟨fun hx => ⟨hx, fun he => hk (he ▸ hx)⟩, fun hx => hx.1⟩

theorem cache_deleteKey_val {s : Cache K V T} {k : K} :
    (s.deleteKey k).val = s.val := by
  unfold Cache.deleteKey; split <;> rfl

theorem cache_deleteKey_ts {s : Cache K V T} {k : K} :
    (s.deleteKey k).ts = s.ts := by
  unfold Cache.deleteKey; split <;> rfl

theorem cache_deleteKey_ttl {s : Cache K V T} {k : K} :
    (s.deleteKey k).ttl = s.ttl := by
  unfold Cache.deleteKey; split <;> rfl

theorem cache_deleteKey_keyTags {s : Cache K V T} (h : s.WF) (k x : K) :
    (s.deleteKey k).keyTags x = if x = k then ∅ else s.keyTags x := by
  unfold Cache.deleteKey
  split
  · next hk =>
      by_cases hx : x = k <;> simp [Function.update, hx]
  · next hk =>
      by_cases hx : x = k
      · subst hx; simp [h.2 x hk]
      · simp [hx]

theorem cache_mem_deleteKey_tags {s : Cache K V T} (h : s.WF) (k : K)
    {x : K} {u : T} :
    x ∈ (s.deleteKey k).tags u ↔ x ∈ s.tags u ∧ x ≠ k := by
  unfold Cache.deleteKey
  split
  · next hk =>
      by_cases hu : u ∈ s.keyTags k
      · simp only [hu, if_pos, Finset.mem_erase]
        exact ⟨fun hx => ⟨hx.2, hx.1⟩, fun hx => ⟨hx.2, hx.1⟩⟩
      · simp only [hu, if_neg, not_false_iff]
        refine ⟨fun hx => ⟨hx, fun he => hu ?_⟩, fun hx => hx.1⟩
        exact ((h.1 k u).1 (he ▸ hx)).2
  · next hk =>
      refine ⟨fun hx => ⟨hx, fun he => hk ?_⟩, fun hx => hx.1⟩
      exact ((h.1 k u).1 (he ▸ hx)).1

theorem cache_wf_deleteKey {s : Cache K V T} (h : s.WF) (k : K) :
    (s.deleteKey k).WF := by
  constructor
  · intro x u
    rw [cache_mem_deleteKey_tags h k, cache_mem_deleteKey_keys,
      cache_deleteKey_keyTags h k x, h.1 x u]
    by_cases hx : x = k <;> simp [hx]
  · intro x hx
    rw [cache_mem_deleteKey_keys] at hx
    rw [cache_deleteKey_keyTags h k x]
    by_cases he : x = k
    · simp [he]
    · simp only [he, if_neg, not_false_iff]
      exact h.2 x (fun hmem => hx ⟨hmem, he⟩)

theorem cache_mem_asList {α : Type} [LinearOrder α] {s : Finset α} {a : α} :
    a ∈ s.asList ↔ a ∈ s := by
  unfold Finset.asList; exact Finset.mem_sort _

theorem cache_foldDelete_val (L : List K) :
    ∀ s : Cache K V T, (s.foldDelete L).val = s.val := by
  induction L with
  | nil => intro s; rfl
  | cons k L ih =>
      intro s
      show ((s.deleteKey k).foldDelete L).val = s.val
      rw [ih]; exact cache_deleteKey_val

theorem cache_foldDelete_ts (L : List K) :
    ∀ s : Cache K V T, (s.foldDelete L).ts = s.ts := by
  induction L with
  | nil => intro s; rfl
  | cons k L ih =>
      intro s
      show ((s.deleteKey k).foldDelete L).ts = s.ts
      rw [ih]; exact cache_deleteKey_ts

theorem cache_mem_foldDelete_keys (L : List K) :
    ∀ (s : Cache K V T) (x : K),
      x ∈ (s.foldDelete L).keys ↔ x ∈ s.keys ∧ x ∉ L := by
  induction L with
  | nil => intro s x; simp [Cache.foldDelete]
  | cons k L ih =>
      intro s x
      show x ∈ ((s.deleteKey k).foldDelete L).keys ↔ _
      rw [ih, cache_mem_deleteKey_keys]
      simp only [List.mem_cons]
      tauto

theorem cache_wf_foldDelete (L : List K) :
    ∀ s : Cache K V T, s.WF → (s.foldDelete L).WF := by
  induction L with
  | nil => exact fun _ h => h
  | cons k L ih => exact fun s h => ih _ (cache_wf_deleteKey h k)

theorem cache_mem_foldDelete_tags (L : List K) :
    ∀ (s : Cache K V T), s.WF → ∀ (x : K) (u : T),
      x ∈ (s.foldDelete L).tags u ↔ x ∈ s.tags u ∧ x ∉ L := by
  induction L with
  | nil => intro s _ x u; simp [Cache.foldDelete]
  | cons k L ih =>
      intro s h x u
      show x ∈ ((s.deleteKey k).foldDelete L).tags u ↔ _
      rw [ih _ (cache_wf_deleteKey h k), cache_mem_deleteKey_tags h k]
      simp only [List.mem_cons]
      tauto

theorem cache_invalidateByTag_eq (s : Cache K V T) (t : T) :
    s.invalidateByTag t
      = ((s.tags t).asList.length,
         { s.foldDelete (s.tags t).asList with
           tags := Function.update (s.foldDelete (s.tags t).asList).tags t
             ∅ }) :=
  rfl

theorem cache_invalidateByPattern_eq (s : Cache K V T) (pat : K → Bool) :
    s.invalidateByPattern pat
      = ((s.keys.asList.filter pat).length,
         s.foldDelete (s.keys.asList.filter pat)) :=
  rfl

theorem cache_wf_get {s : Cache K V T} (h : s.WF) (now : Nat) (k : K) :
    (s.get now k).2.WF := by
  unfold Cache.get
  split
  · split
    · exact cache_wf_deleteKey h k
    · exact h
  · exact h

theorem cache_wf_set {s : Cache K V T} (h : s.WF) (k : K) (v : V)
    (tgs : List T) (now : Nat) : (s.set k v tgs now).WF := by
  refine ⟨fun x u => ?_, fun x hx => ?_⟩
  · show x ∈ (if u ∈ tgs then insert k (s.tags u) else s.tags u)
        ↔ x ∈ insert k s.keys
          ∧ u ∈ Function.update s.keyTags k (s.keyTags k ∪ tgs.toFinset) x
    by_cases hxk : x = k
    · subst hxk
      rw [Function.update_same]
      by_cases hu : u ∈ tgs
      · simp [hu, Finset.mem_union, List.mem_toFinset]
      · simp only [hu, if_neg, not_false_iff, Finset.mem_insert,
          Finset.mem_union, List.mem_toFinset, true_or, true_and]
        constructor
        · intro hk
          exact Or.inl ((h.1 x u).1 hk).2
        · rintro (hk | hk)
          · by_cases hmem : x ∈ s.keys
            · exact (h.1 x u).2 ⟨hmem, hk⟩
            · rw [h.2 x hmem] at hk
              exact absurd hk (Finset.not_mem_empty u)
          · exact hk.elim
    · rw [Function.update_noteq hxk]
      by_cases hu : u ∈ tgs <;>
        simp [hu, Finset.mem_insert, hxk, h.1 x u]
  · show Function.update s.keyTags k (s.keyTags k ∪ tgs.toFinset) x = ∅
    have hxk : x ≠ k := fun he => hx (he ▸ Finset.mem_insert_self k s.keys)
    rw [Function.update_noteq hxk]
    exact h.2 x fun hm => hx (Finset.mem_insert_of_mem hm)

theorem cache_wf_clear (s : Cache K V T) : s.clear.WF := by
  refine ⟨fun x u => ?_, fun x _ => rfl⟩
  simp [Cache.clear]

theorem cache_wf_invalidateByTag {s : Cache K V T} (h : s.WF) (t : T) :
    (s.invalidateByTag t).2.WF := by
  rw [cache_invalidateByTag_eq]
  have hs2 := cache_wf_foldDelete (s.tags t).asList s h
  refine ⟨fun x u => ?_, fun x hx => hs2.2 x hx⟩
  by_cases hu : u = t
  · subst hu
    show x ∈ Function.update (s.foldDelete (s.tags u).asList).tags u ∅ u ↔ _
    rw [Function.update_same]
    simp only [Finset.not_mem_empty, false_iff]
    rintro ⟨hk, ht⟩
    have hmem := (hs2.1 x u).2 ⟨hk, ht⟩
    rw [cache_mem_foldDelete_tags _ s h] at hmem
    exact hmem.2 (cache_mem_asList.2 hmem.1)
  · show x ∈ Function.update (s.foldDelete (s.tags t).asList).tags t ∅ u ↔ _
    rw [Function.update_noteq hu]
    exact hs2.1 x u

theorem cache_wf_invalidateByPattern {s : Cache K V T} (h : s.WF)
    (pat : K → Bool) : (s.invalidateByPattern pat).2.WF := by
  rw [cache_invalidateByPattern_eq]
  exact cache_wf_foldDelete _ s h

theorem cache_wf_invalidateMultipleTags (tagList : List T) :
    ∀ s : Cache K V T, s.WF → (s.invalidateMultipleTags tagList).2.WF := by
  induction tagList with
  | nil => exact fun _ h => h
  | cons t rest ih => exact fun s h => ih _ (cache_wf_invalidateByTag h t)

/-- Claim C7: after `invalidate_by_tag(T)`, `get` returns no value for any
key that carried tag `T` at the call, the returned count equals the number
of present keys carrying `T`, and any key not carrying `T` still maps to the
same value (and keeps its timestamp).  Holds for every cache state
satisfying the tag-index invariant — i.e. every state the operations
produce. -/
theorem c7_invalidate_by_tag_removes_tagged (s : Cache K V T) (t : T)
    (k : K) (now : Nat) (h : s.WF) :
    (k ∈ s.keys → t ∈ s.keyTags k →
      ((s.invalidateByTag t).2.get now k).1 = none) ∧
    (s.invalidateByTag t).1 = (s.keys.filter fun x => t ∈ s.keyTags x).card ∧
    (t ∉ s.keyTags k →
      (s.invalidateByTag t).2.lookup k = s.lookup k ∧
      (s.invalidateByTag t).2.ts k = s.ts k) := by
  rw [cache_invalidateByTag_eq]
  refine ⟨fun hk hkt => ?_, ?_, fun hkt => ?_⟩
  · have hkL : k ∈ (s.tags t).asList :=
      cache_mem_asList.2 ((h.1 k t).2 ⟨hk, hkt⟩)
    have hnk : k ∉ (s.foldDelete (s.tags t).asList).keys := fun hm =>
      ((cache_mem_foldDelete_keys _ s k).1 hm).2 hkL
    simp [Cache.get, hnk]
  · show (s.tags t).asList.length = _
    have htags : s.tags t = s.keys.filter fun x => t ∈ s.keyTags x := by
      ext x
      rw [Finset.mem_filter]
      exact h.1 x t
    unfold Finset.asList
    rw [Finset.length_sort]
    exact congrArg Finset.card htags
  · have hkL : k ∉ (s.tags t).asList := fun hm =>
      hkt ((h.1 k t).1 (cache_mem_asList.1 hm)).2
    have hmem : k ∈ (s.foldDelete (s.tags t).asList).keys ↔ k ∈ s.keys := by
      rw [cache_mem_foldDelete_keys]
      exact ⟨fun hx => hx.1, fun hx => ⟨hx, hkL⟩⟩
    constructor
    · by_cases hk : k ∈ s.keys
      · simp [Cache.lookup, hmem.2 hk, hk, cache_foldDelete_val]
      · have hnf : k ∉ (s.foldDelete (s.tags t).asList).keys :=
          fun hm => hk (hmem.1 hm)
        simp [Cache.lookup, hnf, hk]
    · show (s.foldDelete (s.tags t).asList).ts k = s.ts k
      rw [cache_foldDelete_ts]

/-- Claim C8: every cache operation — `get` (with its lazy expiry), `set`,
`delete`, `clear`, `invalidate_by_tag`, `invalidate_by_pattern`,
`invalidate_multiple_tags` — preserves the two-sided tag-index invariant;
each runs as one atomic step (one lock acquisition) in the model. -/
theorem c8_ops_preserve_tag_invariant (s : Cache K V T) (h : s.WF)
    (now now2 : Nat) (k k2 : K) (v : V) (tgs : List T) (t : T)
    (pat : K → Bool) (tagList : List T) :
    (s.get now k).2.WF ∧ (s.set k2 v tgs now2).WF ∧ (s.delete k).WF ∧
    s.clear.WF ∧ (s.invalidateByTag t).2.WF ∧
    (s.invalidateByPattern pat).2.WF ∧
    (s.invalidateMultipleTags tagList).2.WF :=
  ⟨cache_wf_get h now k, cache_wf_set h k2 v tgs now2,
   cache_wf_deleteKey h k, cache_wf_clear s, cache_wf_invalidateByTag h t,
   cache_wf_invalidateByPattern h pat,
   cache_wf_invalidateMultipleTags tagList s h⟩

theorem cacheW_wf : cacheW.WF := by
  constructor
  · intro k t
    by_cases hk : k = "a" <;> by_cases ht : t = "T" <;>
      simp [cacheW, hk, ht]
  · intro k hk
    have hk2 : k ≠ "a" := by simpa [cacheW] using hk
    simp [cacheW, hk2]

theorem c7_witness :
    ((cacheW.invalidateByTag "T").2.get 0 "a").1 = none ∧
    (cacheW.invalidateByTag "T").1
        = (cacheW.keys.filter fun x => "T" ∈ cacheW.keyTags x).card ∧
    ((cacheW.invalidateByTag "T").2.lookup "b" = cacheW.lookup "b" ∧
     (cacheW.invalidateByTag "T").2.ts "b" = cacheW.ts "b") := by
  have ha := c7_invalidate_by_tag_removes_tagged cacheW "T" "a" 0 cacheW_wf
  have hb := c7_invalidate_by_tag_removes_tagged cacheW "T" "b" 0 cacheW_wf
  exact ⟨ha.1 (by decide) (by decide), ha.2.1, hb.2.2 (by decide)⟩

theorem c8_witness :
    (cacheW.get 5 "a").2.WF ∧ (cacheW.set "b" 2 ["U"] 5).WF ∧
    (cacheW.delete "a").WF ∧ cacheW.clear.WF ∧
    (cacheW.invalidateByTag "T").2.WF ∧
    (cacheW.invalidateByPattern fun _ => true).2.WF ∧
    (cacheW.invalidateMultipleTags ["T", "U"]).2.WF :=
  c8_ops_preserve_tag_invariant cacheW cacheW_wf 5 5 "a" "b" 2 ["U"] "T"
    (fun _ => true) ["T", "U"]
